import Mathlib

/-!
Verification of the RSP (Remote Serial Protocol) transport and parser library.

The Rust sources are embedded shallowly:
* bytes are modelled as `Nat` (values < 256 on the wire); `u8` arithmetic is
  explicit arithmetic modulo 256, `u64` arithmetic modulo 2^64;
* the write channel is modelled as the list of bytes written (writing to an
  in-memory sink never fails, as in the crate's own tests); the read channel
  is a finite list of bytes, and reading from an exhausted channel produces
  `IOError`, mirroring `read_exact` failing at end of stream;
* `RspConnection` methods become state-passing functions returning the new
  connection state, the remaining read-channel input, and the bytes written.
-/

namespace Rsp

/-- Wrapping `u8` addition, as used by `checksum.wrapping_add`. -/
def u8add (a b : Nat) : Nat := (a + b) % 256

/-- 2^64, the modulus of Rust `u64` arithmetic. -/
def U64MOD : Nat := 18446744073709551616

/-- `src/util.rs decode_hex`: map one byte to its hex-digit value, per the
match arms `b'0'...b'9'`, `b'a'...b'f'`, `b'A'...b'F'`, else fail. -/
def hexDigitOfByte (c : Nat) : Option Nat :=
  if 48 ≤ c ∧ c ≤ 57 then some (c - 48)
  else if 97 ≤ c ∧ c ≤ 102 then some (c - 97 + 10)
  else if 65 ≤ c ∧ c ≤ 70 then some (c - 65 + 10)
  else none

/-- Loop of `decode_hex`: `result = result * 16 + digit` in `u64`. -/
def decode_hex_go : List Nat → Nat → Option Nat
  | [], r => some r
  | c :: rest, r =>
    match hexDigitOfByte c with
    | none => none
    | some d => decode_hex_go rest ((r * 16 + d) % U64MOD)

/-- `src/util.rs`: `decode_hex(seq)`. -/
def decode_hex (seq : List Nat) : Option Nat := decode_hex_go seq 0

/-- `true` iff the byte is an ASCII hex digit (either case). -/
def is_hex_digit (c : Nat) : Bool :=
  decide ((48 ≤ c ∧ c ≤ 57) ∨ (97 ≤ c ∧ c ≤ 102) ∨ (65 ≤ c ∧ c ≤ 70))

/-- Numeric value of an ASCII hex digit (0 for non-digits). -/
def hex_digit_val (c : Nat) : Nat :=
  if 48 ≤ c ∧ c ≤ 57 then c - 48
  else if 97 ≤ c ∧ c ≤ 102 then c - 97 + 10
  else if 65 ≤ c ∧ c ≤ 70 then c - 65 + 10
  else 0

theorem hexDigitOfByte_eq (c : Nat) :
    hexDigitOfByte c = if is_hex_digit c then some (hex_digit_val c) else none := by
  unfold hexDigitOfByte is_hex_digit hex_digit_val
  split_ifs with h1 h2 h3 h4 <;> simp_all <;> omega

theorem hex_digit_val_lt (c : Nat) (h : is_hex_digit c = true) : hex_digit_val c < 16 := by
  unfold is_hex_digit at h
  unfold hex_digit_val
  split_ifs <;> simp_all <;> omega

theorem decode_hex_go_eq (seq : List Nat) : ∀ r : Nat,
    decode_hex_go seq r =
      if seq.all is_hex_digit then
        some (seq.foldl (fun a c => (a * 16 + hex_digit_val c) % U64MOD) r)
      else none := by
  induction seq with
  | nil => intro r; simp [decode_hex_go]
  | cons c rest ih =>
    intro r
    simp only [decode_hex_go, hexDigitOfByte_eq, List.all_cons, List.foldl_cons]
    by_cases h : is_hex_digit c
    · simp [h, ih]
    · simp [h]

/-! ## Data model (`src/low.rs`) -/

/-- `src/low.rs RspError` (the wrapped `io::Error` payload is dropped). -/
inductive RspError where
  | IOError : RspError
  | InvalidChecksum : RspError
  | TooManyRetries : RspError
deriving DecidableEq, Repr

/-- `src/low.rs PacketType`. -/
inductive PacketType where
  | Normal : PacketType
  | Notification : PacketType
deriving DecidableEq, Repr

/-- `src/low.rs Id`: part of a process id (`Id(u32)` value modelled as `Nat`). -/
inductive Id where
  | Id : Nat → Id
  | All : Id
  | Any : Id
deriving DecidableEq, Repr

/-- `src/low.rs ProcessId`. -/
structure ProcessId where
  pid : Id
  tid : Id
deriving DecidableEq, Repr

/-- `src/low.rs ProcessId::new(pid: i32, tid: Option<i32>)`.  The two
`assert!` calls are modelled as returning `none` (a panic). -/
def ProcessId.new (pid : Int) (tid : Option Int) : Option ProcessId :=
  if 0 < pid then
    match tid with
    | some v => if 0 < v then some ⟨Id.Id pid.toNat, Id.Id v.toNat⟩ else none
    | none => some ⟨Id.Id pid.toNat, Id.Any⟩
  else none

/-- `src/low.rs RspConnection` framing state.  The borrowed channels are not
fields: the read channel is passed to the reading operations as a byte list
and the bytes written are returned alongside the new state. -/
structure RspConnection where
  acking : Bool
  is_client : Bool
  in_packet : Nat
  checksum : Nat
  last_packet : List Nat
  max_retries : Option Nat
deriving DecidableEq, Repr

/-- `RspConnection::new`: `acking = true`, `in_packet = 0`, zero checksum,
empty retransmit buffer, unbounded retries. -/
def RspConnection.new (is_client : Bool) : RspConnection :=
  { acking := true, is_client := is_client, in_packet := 0, checksum := 0,
    last_packet := [], max_retries := none }

/-- `RspConnection::set_maximum_retries`. -/
def RspConnection.set_maximum_retries (c : RspConnection) (m : Option Nat) : RspConnection :=
  { c with max_retries := m }

/-- The `Write` impl for `RspConnection` (`src/low.rs` lines 109-126): every
byte forwarded to the wire is added (wrapping) to the checksum and, when
acking, appended to `last_packet`.  Returns (new state, bytes written). -/
def RspConnection.write (c : RspConnection) (buf : List Nat) : RspConnection × List Nat :=
  ({ c with checksum := buf.foldl u8add c.checksum,
            last_packet := if c.acking then c.last_packet ++ buf else c.last_packet },
   buf)

/-- `RspConnection::start_packet`: requires `in_packet = 0` (the `assert!`);
resets the checksum, records `$` as the open packet type, and writes `$`
directly to the channel, bypassing the checksum. -/
def RspConnection.start_packet (c : RspConnection) : RspConnection × List Nat :=
  ({ c with checksum := 0, in_packet := 36 }, [36])

/-- `RspConnection::start_notification_packet`: as `start_packet` with `%`. -/
def RspConnection.start_notification_packet (c : RspConnection) : RspConnection × List Nat :=
  ({ c with checksum := 0, in_packet := 37 }, [37])

/-- `RspConnection::disable_acking`. -/
def RspConnection.disable_acking (c : RspConnection) : RspConnection :=
  { c with acking := false, last_packet := [] }

/-- Lowercase hex digit character for a value < 16 (`{:x}` formatting). -/
def hexDigitChar (d : Nat) : Nat := if d < 10 then 48 + d else 87 + d

/-- The two bytes produced by `write!(.., "{:02x}", n)` for `n < 256`. -/
def hex2 (n : Nat) : List Nat := [hexDigitChar (n / 16), hexDigitChar (n % 16)]

/-- One resend as performed inside the ack loop: the packet-type byte, the
buffered `last_packet`, and `#` plus the two checksum digits. -/
def resend_block (c : RspConnection) (kind : Nat) : List Nat :=
  kind :: c.last_packet ++ 35 :: hex2 c.checksum

/-- Ack loop of `finish_packet` (`src/low.rs` lines 213-236).  `kind` is the
saved `in_packet` byte; `count` is the retry counter, a `u16` in the source
(its type is unified with `max: u16` by `count > max`), so it is only
advanced when `max_retries` is set and `count = count + 1` wraps modulo
2^16.  A `max_retries` value, being `u16`, is meaningful only below 2^16.
Returns (result state, remaining input, bytes written). -/
def ack_loop (c : RspConnection) (kind : Nat) : Nat → List Nat →
    Except RspError RspConnection × List Nat × List Nat
  | _, [] => (.error .IOError, [], [])
  | count, ch :: rest =>
    if ch = 43 then (.ok { c with last_packet := [] }, rest, [])
    else
      match c.max_retries with
      | some max =>
        if max < (count + 1) % 65536 then (.error .TooManyRetries, rest, [])
        else
          let r := ack_loop c kind ((count + 1) % 65536) rest
          (r.1, r.2.1, resend_block c kind ++ r.2.2)
      | none =>
        let r := ack_loop c kind count rest
        (r.1, r.2.1, resend_block c kind ++ r.2.2)

/-- `RspConnection::finish_packet`: requires `in_packet ≠ 0` (the `assert!`).
Writes the `#xx` trailer bypassing the checksum, then in acking mode runs the
ack loop (clearing `last_packet` on a `+`).  Returns (result state, remaining
input, bytes written). -/
def RspConnection.finish_packet (c : RspConnection) (input : List Nat) :
    Except RspError RspConnection × List Nat × List Nat :=
  let kind := c.in_packet
  let c2 := { c with in_packet := 0 }
  let trailer := 35 :: hex2 c2.checksum
  if c2.acking then
    let r := ack_loop c2 kind 0 input
    (r.1, r.2.1, trailer ++ r.2.2)
  else
    (.ok c2, input, trailer)

/-- `RspConnection::full_packet`: start, write the contents, finish. -/
def RspConnection.full_packet (c : RspConnection) (contents : List Nat) (input : List Nat) :
    Except RspError RspConnection × List Nat × List Nat :=
  let s := c.start_packet
  let w := s.1.write contents
  let f := w.1.finish_packet input
  (f.1, f.2.1, s.2 ++ w.2 ++ f.2.2)

/-- Loop of `RspConnection::write_binary` (`src/low.rs` lines 272-295),
producing the byte sequence passed to `self.write_all` calls, in order.
`fuel` counts the remaining iterations of `for i in 0..buf.len()` (it starts
at `buf.len()`, so `i < buf.length` whenever `fuel > 0`); when the loop ends,
the final `if buf.len() >= last_index { write_all(&buf[last_index..]) }` runs.
Note the source advances `last_index` only inside `if i > last_index`. -/
def write_binary_go (buf : List Nat) : Nat → Nat → Nat → List Nat
  | 0, _, last_index => if last_index ≤ buf.length then buf.drop last_index else []
  | fuel + 1, i, last_index =>
    let b := buf.getD i 0
    if b = 36 ∨ b = 35 ∨ b = 125 ∨ b = 42 then
      if last_index < i then
        ((buf.drop last_index).take (i - last_index)) ++
          125 :: Nat.xor b 32 :: write_binary_go buf fuel (i + 1) (i + 1)
      else
        125 :: Nat.xor b 32 :: write_binary_go buf fuel (i + 1) last_index
    else
      write_binary_go buf fuel (i + 1) last_index

/-- All bytes `write_binary(buf)` sends through the checksumming writer. -/
def write_binary_wire (buf : List Nat) : List Nat := write_binary_go buf buf.length 0 0

/-- `RspConnection::write_binary`: requires `in_packet ≠ 0` (the `assert!`);
all output goes through the checksumming `write`. -/
def RspConnection.write_binary (c : RspConnection) (buf : List Nat) : RspConnection × List Nat :=
  c.write (write_binary_wire buf)

/-- `RspConnection::write_hex`: each byte as two lowercase hex digits,
through the checksumming `write`. -/
def RspConnection.write_hex (c : RspConnection) (data : List Nat) : RspConnection × List Nat :=
  c.write (data.map hex2).flatten

/-- `{:x}` formatting loop: most-significant digit first, no leading zeros.
`fuel ≥ n` suffices since `n / 16` shrinks every step. -/
def hex_lower_aux : Nat → Nat → List Nat → List Nat
  | 0, _, acc => acc
  | fuel + 1, n, acc =>
    if n = 0 then acc else hex_lower_aux fuel (n / 16) (hexDigitChar (n % 16) :: acc)

/-- `{:x}` of a nonnegative integer: lowercase hex, no leading zeros. -/
def hex_lower (n : Nat) : List Nat := if n = 0 then [48] else hex_lower_aux n n []

/-- `u32::to_be` on a little-endian host: byte-swap of a 32-bit value. -/
def u32_to_be (v : Nat) : Nat :=
  (v % 256) * 16777216 + (v / 256 % 256) * 65536 + (v / 65536 % 256) * 256 + (v / 16777216 % 256)

/-- The bytes `RspConnection::write_thread_id` (`src/low.rs` lines 314-333)
sends through the checksumming writer: `p`, then the pid, and — only when the
pid is a concrete `Id::Id` — a `.` and the tid.  A concrete component is
printed with `write!(self, "{:x}", val.to_be())`. -/
def write_thread_id_wire (pid : ProcessId) : List Nat :=
  112 ::
    match pid.pid with
    | Id.Id val =>
      (hex_lower (u32_to_be val) ++ [46]) ++
        (match pid.tid with
         | Id.Id v2 => hex_lower (u32_to_be v2)
         | Id.All => [45, 49]
         | Id.Any => [48])
    | Id.All => [45, 49]
    | Id.Any => [48]

/-- `RspConnection::write_thread_id`. -/
def RspConnection.write_thread_id (c : RspConnection) (pid : ProcessId) :
    RspConnection × List Nat :=
  c.write (write_thread_id_wire pid)

/-- `RspConnection::interrupt`: requires `in_packet = 0` and `is_client`
(the two `assert!`s); writes `0x03` directly to the channel. -/
def RspConnection.interrupt (c : RspConnection) : RspConnection × List Nat := (c, [3])

/-! ## Reading a packet (`src/low.rs` lines 370-449) -/

/-- The initial loop of `read_packet`: read bytes until
`kind == b'$' && kind == b'%'` — the test written in the source (line 376,
with `&&`).  `none` models `read_char` failing at end of stream. -/
def read_start : List Nat → Option (Nat × List Nat)
  | [] => none
  | k :: rest => if k = 36 ∧ k = 37 then some (k, rest) else read_start rest

/-- Result of the body loop of `read_packet`. -/
inductive BodyOut where
  | panic : BodyOut
  | ioError : BodyOut
  | done : List Nat → Nat → List Nat → BodyOut
deriving DecidableEq, Repr

/-- Body loop of `read_packet` (lines 391-420): stop at `#`; on `*` (clients
only) read the repeat byte `R` and append `R - 29` copies of the previous
byte (the `u8` subtraction underflows — a panic — when `R < 29`), adding `*`
and `R` but not the copies to the checksum, and resetting the previous byte
to `$`; otherwise accumulate the byte into contents and checksum. -/
def read_body (cl : Bool) : List Nat → List Nat → Nat → Nat → BodyOut
  | [], _, _, _ => .ioError
  | ch :: rest, contents, cks, prev =>
    if ch = 35 then .done contents cks rest
    else if ch = 42 ∧ cl then
      match rest with
      | [] => .ioError
      | r :: rest2 =>
        if r < 29 then .panic
        else read_body cl rest2 (contents ++ List.replicate (r - 29) prev)
               (u8add (u8add cks 42) r) 36
    else read_body cl rest (contents ++ [ch]) (u8add cks ch) ch

/-- Outcome of `read_packet`. -/
inductive ReadOutcome where
  | panic : ReadOutcome
  | err : RspError → ReadOutcome
  | ok : PacketType → List Nat → ReadOutcome
deriving DecidableEq, Repr

/-- Full result of `read_packet`: outcome, remaining input, bytes written
(the ack, if any). -/
structure ReadOut where
  out : ReadOutcome
  rest : List Nat
  written : List Nat
deriving DecidableEq, Repr

/-- `RspConnection::read_packet`: find the packet start (see `read_start`),
read the body, read the two checksum characters, and in acking mode compare
against the computed checksum (an undecodable pair is replaced by the bitwise
complement `255 - checksum`), acking `+`/`-` for `Normal` packets only.
`read_packet` mutates no connection state (its checksum is a local). -/
def RspConnection.read_packet (c : RspConnection) (input : List Nat) : ReadOut :=
  match read_start input with
  | none => ⟨.err .IOError, [], []⟩
  | some (kind, rest) =>
    let ptype := if kind = 36 then PacketType.Normal else PacketType.Notification
    match read_body c.is_client rest [] 0 36 with
    | .panic => ⟨.panic, [], []⟩
    | .ioError => ⟨.err .IOError, [], []⟩
    | .done contents cks rest2 =>
      match rest2 with
      | [] => ⟨.err .IOError, [], []⟩
      | [_] => ⟨.err .IOError, [], []⟩
      | n1 :: n2 :: rest3 =>
        if c.acking then
          let n := match decode_hex [n1, n2] with
                   | some v => v % 256
                   | none => 255 - cks
          match ptype with
          | PacketType.Normal =>
            if n = cks then ⟨.ok PacketType.Normal contents, rest3, [43]⟩
            else ⟨.err .InvalidChecksum, rest3, [45]⟩
          | PacketType.Notification => ⟨.ok PacketType.Notification contents, rest3, []⟩
        else ⟨.ok ptype contents, rest3, []⟩

/-! ## Reply grammar (`src/parse.rs`, nom 1.x combinators) -/

/-- nom's `IResult`, with error and needed-size details dropped. -/
inductive IRes (α : Type) where
  | Done : List Nat → α → IRes α
  | Error : IRes α
  | Incomplete : IRes α
deriving DecidableEq, Repr

/-- nom `tag!`: `Incomplete` when the input is shorter than the tag,
otherwise match the prefix. -/
def tag (t : List Nat) (input : List Nat) : IRes Unit :=
  if input.length < t.length then .Incomplete
  else if input.take t.length = t then .Done (input.drop t.length) ()
  else .Error

/-- nom `eof`: succeeds exactly on empty input, consuming nothing. -/
def eof (input : List Nat) : IRes Unit :=
  if input = [] then .Done input () else .Error

/-- `src/parse.rs parse_2_hex`: `take!(2)` then `decode_hex`, cast `as u8`. -/
def parse_2_hex (input : List Nat) : IRes Nat :=
  if input.length < 2 then .Incomplete
  else
    match decode_hex (input.take 2) with
    | none => .Error
    | some v => .Done (input.drop 2) (v % 256)

/-- `src/parse.rs ClientError` (the wrapped `RspError` payload kept). -/
inductive ClientError where
  | RspError : RspError → ClientError
  | ErrorPacket : Nat → ClientError
  | Unsupported : ClientError
  | Unrecognized : ClientError
deriving DecidableEq, Repr

/-- `src/parse.rs parse_error`: `chain!(tag!("E") ~ parse_2_hex ~ eof)`. -/
def parse_error (input : List Nat) : IRes Nat :=
  match tag [69] input with
  | .Incomplete => .Incomplete
  | .Error => .Error
  | .Done r1 _ =>
    match parse_2_hex r1 with
    | .Incomplete => .Incomplete
    | .Error => .Error
    | .Done r2 v =>
      match eof r2 with
      | .Incomplete => .Incomplete
      | .Error => .Error
      | .Done r3 _ => .Done r3 v

/-- `src/parse.rs parse_ok`: `chain!(tag!("OK") ~ eof)`. -/
def parse_ok (input : List Nat) : IRes Unit :=
  match tag [79, 75] input with
  | .Incomplete => .Incomplete
  | .Error => .Error
  | .Done r1 _ =>
    match eof r1 with
    | .Incomplete => .Incomplete
    | .Error => .Error
    | .Done r2 _ => .Done r2 ()

/-- `src/parse.rs parse_simple_reply`: `alt_complete!` over `parse_ok`,
`parse_error`, `eof` — each branch's `Incomplete` counts as failure and the
next alternative is tried on the original input. -/
def parse_simple_reply (input : List Nat) : IRes (Except ClientError Unit) :=
  match parse_ok input with
  | .Done r _ => .Done r (.ok ())
  | _ =>
    match parse_error input with
    | .Done r e => .Done r (.error (.ErrorPacket e))
    | _ =>
      match eof input with
      | .Done r _ => .Done r (.error .Unsupported)
      | _ => .Error

/-- Restatement of the spec sentence for `parse_simple_reply`, for comparison:
`OK` alone yields `Ok(())`, `E` plus exactly two hex digits yields
`ErrorPacket`, the empty input yields `Unsupported`, everything else fails. -/
def simple_reply_spec (input : List Nat) : IRes (Except ClientError Unit) :=
  if input = [79, 75] then .Done [] (.ok ())
  else if input = [] then .Done [] (.error .Unsupported)
  else
    match input with
    | [e, c1, c2] =>
      if e = 69 ∧ is_hex_digit c1 = true ∧ is_hex_digit c2 = true then
        .Done [] (.error (.ErrorPacket (16 * hex_digit_val c1 + hex_digit_val c2)))
      else .Error
    | _ => .Error

/-! ## Helper lemmas -/

/-- The packet-start loop never finds a start byte: the source tests
`kind == b'$' && kind == b'%'`, which no byte satisfies, so the loop skips
every byte and `read_char` fails once the input is exhausted. -/
theorem read_start_eq_none (input : List Nat) : read_start input = none := by
  induction input with
  | nil => rfl
  | cons k rest ih =>
    unfold read_start
    rw [if_neg]
    · exact ih
    · rintro ⟨h1, h2⟩
      omega

/-- Consequence: `read_packet` returns `IOError` on every (finite) input,
consuming it all, writing nothing. -/
theorem read_packet_eq (c : RspConnection) (input : List Nat) :
    c.read_packet input = ⟨.err .IOError, [], []⟩ := by
  unfold RspConnection.read_packet
  rw [read_start_eq_none]

/-- Folding the wrapping add over a list sums it modulo 256. -/
theorem foldl_u8add (l : List Nat) : ∀ a, a < 256 →
    l.foldl u8add a = (a + l.sum) % 256 := by
  induction l with
  | nil => intro a ha; simp [Nat.mod_eq_of_lt ha]
  | cons x xs ih =>
    intro a ha
    have hx : (a + x) % 256 < 256 := Nat.mod_lt _ (by omega)
    simp only [List.foldl_cons, List.sum_cons, u8add]
    rw [ih _ hx]
    omega

theorem hexDigitChar_range (d : Nat) (h : d < 16) :
    (48 ≤ hexDigitChar d ∧ hexDigitChar d ≤ 57) ∨
    (97 ≤ hexDigitChar d ∧ hexDigitChar d ≤ 102) := by
  unfold hexDigitChar
  split_ifs with h10
  · left; omega
  · right; omega

theorem hex2_digits (n : Nat) (h : n < 256) :
    (hex2 n).length = 2 ∧
    ∀ d ∈ hex2 n, (48 ≤ d ∧ d ≤ 57) ∨ (97 ≤ d ∧ d ≤ 102) := by
  refine ⟨rfl, ?_⟩
  intro d hd
  simp only [hex2, List.mem_cons, List.mem_singleton, List.not_mem_nil, or_false] at hd
  rcases hd with h1 | h2
  · exact h1 ▸ hexDigitChar_range _ (by omega)
  · exact h2 ▸ hexDigitChar_range _ (Nat.mod_lt _ (by omega))

/-! ## Claim theorems -/

/-- C1: refuted as stated — evaluating the code at the failing input.  The
wire bytes produced by `start_packet`, `write_all(b"qTfP")`, `finish_packet`
with acking disabled, fed to `read_packet` on a second no-ack client
connection, yield `IOError`, not `(Normal, b"qTfP")`: the start loop's
`kind == b'$' && kind == b'%'` test never matches. -/
theorem C1_roundtrip_broken :
    ((RspConnection.new true).disable_acking.read_packet
        (((RspConnection.new true).disable_acking.full_packet [113, 84, 102, 80] []).2.2)).out
        = .err .IOError ∧
    ((RspConnection.new true).disable_acking.read_packet
        (((RspConnection.new true).disable_acking.full_packet [113, 84, 102, 80] []).2.2)).out
        ≠ .ok .Normal [113, 84, 102, 80] := by
  decide

/-- C2: refuted as stated — evaluating the code at the failing input.
`write_binary` of the single byte `0x23` (`#`) emits the three bytes
`0x7D 0x03 0x23`, not exactly `0x7D 0x03`: `last_index` is advanced only
inside `if i > last_index`, so a reserved byte sitting at `last_index` is
re-emitted unescaped by the final `write_all(&buf[last_index..])`. -/
theorem C2_write_binary_broken :
    write_binary_wire [35] = [125, 3, 35] ∧ write_binary_wire [35] ≠ [125, 3] := by
  decide

/-- C3: refuted as stated — evaluating the code at the failing input.  For
`ProcessId::new(1, None)` (pid `Specific 1`, tid `Any`), `write_thread_id`
emits `p1000000.0` on a little-endian host — the hex of `1u32.to_be()`,
i.e. `0x01000000` — instead of `p1.0`, the hex of the native value. -/
theorem C3_write_thread_id_broken :
    write_thread_id_wire ⟨Id.Id 1, Id.Any⟩ = [112, 49, 48, 48, 48, 48, 48, 48, 46, 48] ∧
    write_thread_id_wire ⟨Id.Id 1, Id.Any⟩ ≠ [112, 49, 46, 48] := by
  decide

/-- C5: refuted as stated — evaluating the code at the failing input.  A
client reading the wire bytes `$0* #7a` (`*` with repeat byte 0x20, so three
extra copies of `0`) gets `IOError`, not contents `0000`: the `&&` bug in
the packet-start loop means the RLE-decoding body loop is never reached. -/
theorem C5_rle_unreachable :
    ((RspConnection.new true).read_packet [36, 48, 42, 32, 35, 55, 97]).out = .err .IOError ∧
    ((RspConnection.new true).read_packet [36, 48, 42, 32, 35, 55, 97]).out
      ≠ .ok .Normal [48, 48, 48, 48] := by
  decide

/-- C6: no byte sequence arriving on the read channel makes `read_packet`
panic (it returns a value or an error for every input; the underflowing
`repeat_ch - 29` in the RLE branch is unreachable), and `ProcessId::new`
panics exactly on API misuse, i.e. a non-positive pid or tid. -/
theorem C6_no_panic (c : RspConnection) (input : List Nat) (pid : Int) (tid : Option Int) :
    (c.read_packet input).out ≠ .panic ∧
    ((ProcessId.new pid tid).isSome ↔ (0 < pid ∧ ∀ v ∈ tid, 0 < v)) := by
  constructor
  · rw [read_packet_eq]
    intro h
    exact ReadOutcome.noConfusion h
  · unfold ProcessId.new
    cases tid with
    | none => split_ifs with h <;> simp_all
    | some v => split_ifs with h1 h2 <;> simp_all

/-- C10 counterexample: the 17-digit hex string `1` followed by sixteen `0`s
consists only of hex digits, yet `decode_hex` does not return the base-16
left fold of its digit values (which is 2^64): the `u64` accumulator wraps
and the result is `Some(0)`. -/
theorem C10_counterexample :
    (49 :: List.replicate 16 48).all is_hex_digit = true ∧
    decode_hex (49 :: List.replicate 16 48) ≠
      some ((49 :: List.replicate 16 48).foldl (fun a c => a * 16 + hex_digit_val c) 0) := by
  decide

/-- C10 (amended): `decode_hex` of the empty sequence is `Some 0`; on a
sequence of ASCII hex digits it returns `Some` of the base-16 left fold of
the digit values computed modulo 2^64, and it returns `None` exactly when
some byte is not a hex digit. -/
theorem C10_decode_hex_amended :
    decode_hex [] = some 0 ∧
    ∀ seq : List Nat,
      decode_hex seq =
        if seq.all is_hex_digit then
          some (seq.foldl (fun a c => (a * 16 + hex_digit_val c) % U64MOD) 0)
        else none := by
  refine ⟨rfl, ?_⟩
  intro seq
  exact decode_hex_go_eq seq 0

/-- C7: with acking disabled, `start_packet`, `write_all(body)`,
`finish_packet` (i.e. `full_packet`) writes `$`, the body, then `#` followed
by exactly two lowercase hex digits of the sum of the body bytes modulo 256 —
neither the start byte nor the trailer contributes to that sum — and
concretely `full_packet(b"qTfP")` puts exactly `$qTfP#7b` on the wire. -/
theorem C7_checksum_trailer (c : RspConnection) (body input : List Nat)
    (h0 : c.in_packet = 0) (hA : c.acking = false) :
    c.full_packet body input =
      (.ok { c with checksum := body.sum % 256, in_packet := 0 }, input,
        36 :: (body ++ 35 :: hex2 (body.sum % 256))) ∧
    (hex2 (body.sum % 256)).length = 2 ∧
    (∀ d ∈ hex2 (body.sum % 256), (48 ≤ d ∧ d ≤ 57) ∨ (97 ≤ d ∧ d ≤ 102)) ∧
    ((RspConnection.new true).disable_acking.full_packet [113, 84, 102, 80] []).2.2
      = [36, 113, 84, 102, 80, 35, 55, 98] := by
  have hsum : body.foldl u8add 0 = (0 + body.sum) % 256 := foldl_u8add body 0 (by omega)
  refine ⟨?_, (hex2_digits _ (Nat.mod_lt _ (by omega))).1,
    (hex2_digits _ (Nat.mod_lt _ (by omega))).2, by decide⟩
  unfold RspConnection.full_packet RspConnection.start_packet RspConnection.write
    RspConnection.finish_packet
  simp [hA, hsum]

/-- C7 witness: the theorem applied to a fresh no-ack client connection and
the body `qTfP`. -/
theorem C7_checksum_trailer_witness :
    (RspConnection.new true).disable_acking.in_packet = 0 ∧
    (RspConnection.new true).disable_acking.acking = false ∧
    ((RspConnection.new true).disable_acking.full_packet [113, 84, 102, 80] []).2.2
      = [36, 113, 84, 102, 80, 35, 55, 98] :=
  ⟨rfl, rfl,
    (C7_checksum_trailer ((RspConnection.new true).disable_acking)
      [113, 84, 102, 80] [] rfl rfl).2.2.2⟩

/-- C8: once acking is off (`disable_acking` forces `acking = false` and no
operation restores it), `finish_packet` writes only the trailer and consumes
no input (it never reads an ack byte), and `read_packet` writes no `+`/`-`
and never returns `InvalidChecksum`. -/
theorem C8_noack_monotonic (c : RspConnection) (input buf : List Nat) (pid : ProcessId)
    (m : Option Nat) (hA : c.acking = false) (hP : c.in_packet ≠ 0) :
    c.finish_packet input = (.ok { c with in_packet := 0 }, input, 35 :: hex2 c.checksum) ∧
    (c.read_packet input).written = [] ∧
    (c.read_packet input).out ≠ .err .InvalidChecksum ∧
    c.disable_acking.acking = false ∧
    (c.write buf).1.acking = false ∧
    c.start_packet.1.acking = false ∧
    c.start_notification_packet.1.acking = false ∧
    (c.set_maximum_retries m).acking = false ∧
    (c.write_binary buf).1.acking = false ∧
    (c.write_hex buf).1.acking = false ∧
    (c.write_thread_id pid).1.acking = false ∧
    c.interrupt.1.acking = false := by
  refine ⟨?_, ?_, ?_, rfl, hA, hA, hA, hA, hA, hA, hA, hA⟩
  · unfold RspConnection.finish_packet
    simp [hA]
  · rw [read_packet_eq]
  · rw [read_packet_eq]
    intro h
    simp at h

/-- A no-ack connection with an open packet, used by the C8 witness. -/
def connC8 : RspConnection := ((RspConnection.new true).disable_acking.start_packet).1

/-- C8 witness: the theorem applied to `connC8` and concrete channel data. -/
theorem C8_noack_monotonic_witness :
    connC8.acking = false ∧ connC8.in_packet ≠ 0 ∧
    connC8.finish_packet [43] =
      (.ok { connC8 with in_packet := 0 }, [43], 35 :: hex2 connC8.checksum) ∧
    (connC8.read_packet [43]).written = [] :=
  have h := C8_noack_monotonic connC8 [43] [] ⟨Id.Id 1, Id.Any⟩ none rfl (by decide)
  ⟨rfl, by decide, h.1, h.2.1⟩

/-- Ack loop with no retry cap: `k` non-`+` bytes then a `+` give `k`
resends and success. -/
theorem ack_loop_none (c : RspConnection) (kind : Nat) (hm : c.max_retries = none) :
    ∀ (negs tail : List Nat) (count : Nat), (∀ b ∈ negs, b ≠ 43) →
      ack_loop c kind count (negs ++ 43 :: tail) =
        (.ok { c with last_packet := [] }, tail,
          (List.replicate negs.length (resend_block c kind)).flatten) := by
  intro negs
  induction negs with
  | nil => intro tail count _; simp [ack_loop]
  | cons b negs ih =>
    intro tail count hneg
    have hb : b ≠ 43 := hneg b (List.mem_cons_self b negs)
    simp only [List.cons_append, ack_loop, if_neg hb, hm, List.append_eq]
    rw [ih tail count (fun x hx => hneg x (List.mem_cons_of_mem b hx))]
    simp [List.replicate_succ, hm]

/-- Ack loop with a `u16`-representable cap not yet reached by the pending
negatives: the counter never wraps and every check passes. -/
theorem ack_loop_some_le (c : RspConnection) (kind m : Nat) (hm : c.max_retries = some m)
    (hm16 : m ≤ 65535) :
    ∀ (negs tail : List Nat) (count : Nat), (∀ b ∈ negs, b ≠ 43) →
      count + negs.length ≤ m →
      ack_loop c kind count (negs ++ 43 :: tail) =
        (.ok { c with last_packet := [] }, tail,
          (List.replicate negs.length (resend_block c kind)).flatten) := by
  intro negs
  induction negs with
  | nil => intro tail count _ _; simp [ack_loop]
  | cons b negs ih =>
    intro tail count hneg hle
    have hb : b ≠ 43 := hneg b (List.mem_cons_self b negs)
    have hlen : count + (b :: negs).length ≤ m := hle
    simp only [List.length_cons] at hlen
    have hc2 : (count + 1) % 65536 = count + 1 := Nat.mod_eq_of_lt (by omega)
    simp only [List.cons_append, ack_loop, if_neg hb, hm, List.append_eq, hc2]
    rw [if_neg (by omega)]
    rw [ih tail (count + 1) (fun x hx => hneg x (List.mem_cons_of_mem b hx)) (by omega)]
    simp [List.replicate_succ, hm]

/-- Ack loop with a cap `m` with `m + 1` still `u16`-representable and
exceeded by the pending negatives: the counter reaches `m + 1` without
wrapping, so the loop fails with `TooManyRetries` after `m - count`
resends. -/
theorem ack_loop_some_exceed (c : RspConnection) (kind m : Nat) (hm : c.max_retries = some m)
    (hm16 : m + 1 ≤ 65535) :
    ∀ (negs rest : List Nat) (count : Nat), (∀ b ∈ negs, b ≠ 43) →
      count + negs.length = m + 1 → count ≤ m →
      ack_loop c kind count (negs ++ rest) =
        (.error .TooManyRetries, rest,
          (List.replicate (m - count) (resend_block c kind)).flatten) := by
  intro negs
  induction negs with
  | nil =>
    intro rest count _ hcnt hcm
    simp only [List.length_nil] at hcnt
    omega
  | cons b negs ih =>
    intro rest count hneg hcnt hcm
    have hb : b ≠ 43 := hneg b (List.mem_cons_self b negs)
    simp only [List.length_cons] at hcnt
    have hc2 : (count + 1) % 65536 = count + 1 := Nat.mod_eq_of_lt (by omega)
    simp only [List.cons_append, ack_loop, if_neg hb, hm, List.append_eq, hc2]
    by_cases hstop : m < count + 1
    · have hcm2 : count = m := by omega
      have hnil : negs = [] := List.eq_nil_of_length_eq_zero (by omega)
      subst hnil
      rw [if_pos hstop]
      simp [hcm2]
    · rw [if_neg hstop]
      rw [ih rest (count + 1) (fun x hx => hneg x (List.mem_cons_of_mem b hx))
        (by omega) (by omega)]
      have hmc : m - count = (m - (count + 1)) + 1 := by omega
      rw [hmc]
      simp [List.replicate_succ]

/-- Ack loop at the top of the `u16` range: with `max_retries = some m` for
`m ≥ 65535`, the wrapped counter `(count + 1) % 2^16` can never exceed the
cap, so the loop always resends until the `+` and succeeds — it can never
return `TooManyRetries`. -/
theorem ack_loop_max_wrap (c : RspConnection) (kind m : Nat) (hm : c.max_retries = some m)
    (hge : 65535 ≤ m) :
    ∀ (negs tail : List Nat) (count : Nat), (∀ b ∈ negs, b ≠ 43) →
      ack_loop c kind count (negs ++ 43 :: tail) =
        (.ok { c with last_packet := [] }, tail,
          (List.replicate negs.length (resend_block c kind)).flatten) := by
  intro negs
  induction negs with
  | nil => intro tail count _; simp [ack_loop]
  | cons b negs ih =>
    intro tail count hneg
    have hb : b ≠ 43 := hneg b (List.mem_cons_self b negs)
    have hlt : (count + 1) % 65536 < 65536 := Nat.mod_lt _ (by omega)
    simp only [List.cons_append, ack_loop, if_neg hb, hm, List.append_eq]
    rw [if_neg (by omega)]
    rw [ih tail ((count + 1) % 65536) (fun x hx => hneg x (List.mem_cons_of_mem b hx))]
    simp [List.replicate_succ, hm]

/-- An acking connection with an open `$` packet, empty buffer, and the
maximal representable retry cap `65535`, used by the C4 counterexample. -/
def connC4wrap : RspConnection :=
  { acking := true, is_client := true, in_packet := 36, checksum := 0,
    last_packet := [], max_retries := some 65535 }

/-- C4 counterexample: with `max_retries = Some(65535)` (the largest `u16`)
and `k = 65536` negative acks followed by a `+`, the claim predicts
`TooManyRetries` after `k - 1 = 65535` resends; the code instead wraps the
`u16` retry counter (`count + 1` at 65535 gives 0, never exceeding the cap)
and the call succeeds. -/
theorem C4_ack_retry_counterexample :
    (connC4wrap.finish_packet (List.replicate 65536 45 ++ 43 :: [])).1 =
      .ok { connC4wrap with in_packet := 0, last_packet := [] } ∧
    (connC4wrap.finish_packet (List.replicate 65536 45 ++ 43 :: [])).1 ≠
      .error .TooManyRetries := by
  have hneg : ∀ b ∈ List.replicate 65536 (45 : Nat), b ≠ 43 := by
    intro b hb
    rw [List.eq_of_mem_replicate hb]
    omega
  have hmain : (connC4wrap.finish_packet (List.replicate 65536 45 ++ 43 :: [])).1 =
      .ok { connC4wrap with in_packet := 0, last_packet := [] } := by
    unfold RspConnection.finish_packet
    have hA2 : ({ connC4wrap with in_packet := 0 } : RspConnection).acking = true := rfl
    rw [if_pos hA2]
    rw [ack_loop_max_wrap { connC4wrap with in_packet := 0 } connC4wrap.in_packet 65535
      rfl (Nat.le_refl 65535) (List.replicate 65536 45) [] 0 hneg]
  refine ⟨hmain, ?_⟩
  rw [hmain]
  intro hcontra
  exact Except.noConfusion hcontra

/-- C4 (amended): in acking mode, if the peer delivers `k` non-`+` bytes and
then a `+`, `finish_packet` resends the packet exactly `k` times and
succeeds, provided `max_retries` is `None` or a (`u16`-representable) value
at least `k`; and with `max_retries = k - 1` for `1 ≤ k ≤ 65535` — so the
`u16` retry counter cannot wrap before passing the cap — it returns
`TooManyRetries` after exactly `k - 1` resends. -/
theorem C4_ack_retry (c : RspConnection) (negs tail : List Nat) (k : Nat)
    (hA : c.acking = true) (hP : c.in_packet ≠ 0)
    (hneg : ∀ b ∈ negs, b ≠ 43) (hk : negs.length = k) :
    ((c.max_retries = none ∨ (∃ m, c.max_retries = some m ∧ k ≤ m ∧ m ≤ 65535)) →
      c.finish_packet (negs ++ 43 :: tail) =
        (.ok { c with in_packet := 0, last_packet := [] }, tail,
          (35 :: hex2 c.checksum) ++
            (List.replicate k
              (c.in_packet :: c.last_packet ++ 35 :: hex2 c.checksum)).flatten)) ∧
    (∀ rest, 1 ≤ k → k ≤ 65535 → c.max_retries = some (k - 1) →
      c.finish_packet (negs ++ rest) =
        (.error .TooManyRetries, rest,
          (35 :: hex2 c.checksum) ++
            (List.replicate (k - 1)
              (c.in_packet :: c.last_packet ++ 35 :: hex2 c.checksum)).flatten)) := by
  have hA2 : ({ c with in_packet := 0 } : RspConnection).acking = true := hA
  constructor
  · intro hmax
    unfold RspConnection.finish_packet
    rw [if_pos hA2]
    rcases hmax with hnone | ⟨m, hsome, hkm, hm16⟩
    · rw [ack_loop_none { c with in_packet := 0 } c.in_packet hnone negs tail 0 hneg]
      simp [hk, resend_block]
    · rw [ack_loop_some_le { c with in_packet := 0 } c.in_packet m hsome hm16 negs tail 0
        hneg (by omega)]
      simp [hk, resend_block]
  · intro rest h1k hk16 hm
    unfold RspConnection.finish_packet
    rw [if_pos hA2]
    rw [ack_loop_some_exceed { c with in_packet := 0 } c.in_packet (k - 1) hm (by omega)
      negs rest 0 hneg (by omega) (by omega)]
    simp [resend_block]

/-- An acking connection with an open `$` packet and buffered body `qTfP`,
used by the C4 witness. -/
def connC4 : RspConnection :=
  { acking := true, is_client := true, in_packet := 36, checksum := 123,
    last_packet := [113, 84, 102, 80], max_retries := none }

/-- C4 witness: two `-` bytes then `+` with no retry cap give two resends and
success; with `max_retries = 1`, three `-` bytes give `TooManyRetries` after
one resend. -/
theorem C4_ack_retry_witness :
    (∀ b ∈ [45, 45], b ≠ 43) ∧
    connC4.finish_packet [45, 45, 43] =
      (.ok { connC4 with in_packet := 0, last_packet := [] }, [],
        [35, 55, 98, 36, 113, 84, 102, 80, 35, 55, 98, 36, 113, 84, 102, 80, 35, 55, 98]) ∧
    (connC4.set_maximum_retries (some 1)).finish_packet [45, 45, 43] =
      (.error .TooManyRetries, [43],
        [35, 55, 98, 36, 113, 84, 102, 80, 35, 55, 98]) :=
  ⟨by decide,
    ((C4_ack_retry connC4 [45, 45] [] 2 rfl (by decide) (by decide) rfl).1
      (Or.inl rfl)).trans (by rfl),
    ((C4_ack_retry (connC4.set_maximum_retries (some 1)) [45, 45] [] 2 rfl (by decide)
      (by decide) rfl).2 [43] (by decide) (by decide) rfl).trans (by rfl)⟩

/-- Decoding exactly two bytes: both must be hex digits, giving
`16*hi + lo`. -/
theorem decode_hex_pair (b c : Nat) :
    decode_hex [b, c] =
      if is_hex_digit b && is_hex_digit c then
        some (16 * hex_digit_val b + hex_digit_val c)
      else none := by
  have h := decode_hex_go_eq [b, c] 0
  rw [show decode_hex [b, c] = decode_hex_go [b, c] 0 from rfl, h]
  by_cases hb : is_hex_digit b <;> by_cases hc : is_hex_digit c <;>
    simp [hb, hc, List.all_cons, List.foldl_cons, List.foldl_nil]
  have hb16 := hex_digit_val_lt b hb
  have hc16 := hex_digit_val_lt c hc
  simp [U64MOD]
  omega

/-- C9: `parse_simple_reply` returns `Ok(())` exactly on `OK`, an
`ErrorPacket` exactly on `E` plus two hex digits (decoded big-endian), and
`Unsupported` exactly on the empty input; every other input — including one
of those forms with trailing bytes — matches none of the alternatives. -/
theorem C9_parse_simple_reply_exact (input : List Nat) :
    parse_simple_reply input = simple_reply_spec input := by
  rcases input with _ | ⟨a, _ | ⟨b, _ | ⟨c, _ | ⟨d, rest⟩⟩⟩⟩
  · rfl
  · -- length 1
    by_cases ha : a = 69
    · subst ha; rfl
    · simp [parse_simple_reply, parse_ok, parse_error, eof, tag, parse_2_hex,
        simple_reply_spec, ha]
  · -- length 2
    by_cases h79 : a = 79
    · by_cases h75 : b = 75
      · subst h79; subst h75; rfl
      · simp [parse_simple_reply, parse_ok, parse_error, eof, tag, parse_2_hex,
          simple_reply_spec, h79, h75]
    · by_cases ha : a = 69
      · subst ha
        simp [parse_simple_reply, parse_ok, parse_error, eof, tag, parse_2_hex,
          simple_reply_spec]
      · simp [parse_simple_reply, parse_ok, parse_error, eof, tag, parse_2_hex,
          simple_reply_spec, h79, ha]
  · -- length 3
    by_cases ha : a = 69
    · subst ha
      have hd := decode_hex_pair b c
      by_cases hb : is_hex_digit b <;> by_cases hc : is_hex_digit c
      · have hb16 := hex_digit_val_lt b hb
        have hc16 := hex_digit_val_lt c hc
        simp [parse_simple_reply, parse_ok, parse_error, eof, tag, parse_2_hex,
          simple_reply_spec, hd, hb, hc, Nat.mod_eq_of_lt (by omega :
            16 * hex_digit_val b + hex_digit_val c < 256)]
      · simp [parse_simple_reply, parse_ok, parse_error, eof, tag, parse_2_hex,
          simple_reply_spec, hd, hb, hc]
      · simp [parse_simple_reply, parse_ok, parse_error, eof, tag, parse_2_hex,
          simple_reply_spec, hd, hb, hc]
      · simp [parse_simple_reply, parse_ok, parse_error, eof, tag, parse_2_hex,
          simple_reply_spec, hd, hb, hc]
    · by_cases h79 : a = 79 <;> by_cases h75 : b = 75 <;>
        simp [parse_simple_reply, parse_ok, parse_error, eof, tag, parse_2_hex,
          simple_reply_spec, ha, h79, h75]
  · -- length ≥ 4
    have h4 : ¬ (rest.length + 1 + 1 + 1 + 1 < 2) := by omega
    have h3 : ¬ (rest.length + 1 + 1 + 1 < 2) := by omega
    by_cases ha : a = 69
    · subst ha
      rcases hdec : decode_hex [b, c] with _ | v <;>
        simp [parse_simple_reply, parse_ok, parse_error, eof, tag, parse_2_hex,
          simple_reply_spec, hdec, h4, h3]
    · by_cases h79 : a = 79 <;> by_cases h75 : b = 75 <;>
        simp [parse_simple_reply, parse_ok, parse_error, eof, tag, parse_2_hex,
          simple_reply_spec, ha, h79, h75, h4, h3]

end Rsp
